import Mathlib

/-!
Shallow embedding of `src/analyze_template.py` (repository `facturas`).

The script opens a workbook, reads row 1 as `headers` and row 2 (when the
sheet has at least two rows) as `row_data`, prints a `HEADERS:` label and
`json.dumps(headers, indent=2)`, prints `"\nSAMPLE ROW:"`, builds
`sample = dict(zip(headers, row_data))`, replaces every value that has an
`isoformat` attribute by `v.isoformat()`, and prints
`json.dumps(sample, indent=2)`.  The whole body sits in a
`try/except Exception` whose handler prints `f"Error: {e}"`.

Standard output is modelled as the list of lines produced by the `print`
calls: each `print(s)` contributes the lines of `s` (its payload split at
newline characters), since `print` terminates its payload with a newline.
The workbook itself is owned by the external spreadsheet reader, so a
worksheet is modelled as the list of rows of cell values that the reader
hands to the script, and `openpyxl.load_workbook` is modelled by the
`LoadResult` input: either a raised exception with its message, or a
loaded worksheet.
-/

namespace AnalyzeTemplate

/-- A `datetime.datetime` cell value as relevant to this script: the six
calendar/clock fields read by `isoformat` (microseconds and timezone are
omitted; `datetime` keeps the year between 1 and 9999). -/
structure PyDateTime where
  year : Nat
  month : Nat
  day : Nat
  hour : Nat
  minute : Nat
  second : Nat
deriving DecidableEq, Repr

/-- The scalar cell values the spreadsheet reader can hand to the script:
text, integer, boolean, an empty cell (`None`), or a date/time. -/
inductive PyVal where
  | vStr (s : String)
  | vInt (n : Int)
  | vBool (b : Bool)
  | vNone
  | vDateTime (d : PyDateTime)
deriving DecidableEq, Repr

/-- Two-digit zero-padded decimal rendering (`"%02d"`) of `n ≤ 99`. -/
def pad2 (n : Nat) : String :=
  ⟨[Nat.digitChar (n / 10 % 10), Nat.digitChar (n % 10)]⟩

/-- Four-digit zero-padded decimal rendering (`"%04d"`) of `n ≤ 9999`. -/
def pad4 (n : Nat) : String :=
  ⟨[Nat.digitChar (n / 1000 % 10), Nat.digitChar (n / 100 % 10),
    Nat.digitChar (n / 10 % 10), Nat.digitChar (n % 10)]⟩

/-- `datetime.isoformat()` with zero microseconds:
`YYYY-MM-DDTHH:MM:SS`. -/
def PyDateTime.isoformat (d : PyDateTime) : String :=
  pad4 d.year ++ "-" ++ pad2 d.month ++ "-" ++ pad2 d.day ++ "T" ++
    pad2 d.hour ++ ":" ++ pad2 d.minute ++ ":" ++ pad2 d.second

/-- `hasattr(v, 'isoformat')`: among the modelled cell values only
date/time values expose `isoformat`. -/
def hasIsoformat : PyVal → Bool
  | .vDateTime _ => true
  | _ => false

/-- The body of the normalization loop: `sample[k] = v.isoformat()` when
`hasattr(v, 'isoformat')`, otherwise the value is left unchanged. -/
def normalizeVal : PyVal → PyVal
  | .vDateTime d => .vStr d.isoformat
  | v => v

/-- Python `==` on the modelled cell values, as used by `dict` for key
identity (note `True == 1` and `False == 0` in Python). -/
def pyEq : PyVal → PyVal → Bool
  | .vStr a, .vStr b => decide (a = b)
  | .vInt a, .vInt b => decide (a = b)
  | .vBool a, .vBool b => decide (a = b)
  | .vBool a, .vInt b => decide ((if a then (1 : Int) else 0) = b)
  | .vInt a, .vBool b => decide (a = (if b then (1 : Int) else 0))
  | .vNone, .vNone => true
  | .vDateTime a, .vDateTime b => decide (a = b)
  | _, _ => false

/-- Key normalization underlying Python `==` on these values: booleans
compare equal to their integer images, all other values only to
themselves; `pyEq` is equality of normalized keys. -/
def toKey : PyVal → PyVal
  | .vBool b => .vInt (if b then 1 else 0)
  | v => v

/-- One `d[k] = v` step on a Python dict, modelled as an insertion-ordered
association list: an existing equal key keeps its position and its stored
key object but gets the new value; a new key is appended. -/
def dictInsert (d : List (PyVal × PyVal)) (k v : PyVal) : List (PyVal × PyVal) :=
  if d.any (fun p => pyEq p.1 k) then
    d.map (fun p => if pyEq p.1 k then (p.1, v) else p)
  else
    d ++ [(k, v)]

/-- `dict(pairs)`: insert the pairs left to right into an empty dict. -/
def pyDict (pairs : List (PyVal × PyVal)) : List (PyVal × PyVal) :=
  pairs.foldl (fun d p => dictInsert d p.1 p.2) []

/-- `d[k]` as an optional value: the value stored at the (unique) key
equal to `k`. -/
def dictLookup (d : List (PyVal × PyVal)) (k : PyVal) : Option PyVal :=
  (d.find? (fun p => pyEq p.1 k)).map (fun p => p.2)

/-- Lowercase four-hex-digit rendering used by JSON `\uXXXX` escapes. -/
def hex4 (n : Nat) : String :=
  ⟨[Nat.digitChar (n / 4096 % 16), Nat.digitChar (n / 256 % 16),
    Nat.digitChar (n / 16 % 16), Nat.digitChar (n % 16)]⟩

/-- `json.dumps` escaping of one character (default `ensure_ascii=True`). -/
def jsonEscapeChar (c : Char) : String :=
  if c = '"' then "\\\""
  else if c = '\\' then "\\\\"
  else if c = '\n' then "\\n"
  else if c = '\t' then "\\t"
  else if c = '\r' then "\\r"
  else if c.toNat = 8 then "\\b"
  else if c.toNat = 12 then "\\f"
  else if c.toNat < 32 then "\\u" ++ hex4 c.toNat
  else if c.toNat < 127 then String.singleton c
  else if c.toNat < 65536 then "\\u" ++ hex4 c.toNat
  else
    "\\u" ++ hex4 (55296 + (c.toNat - 65536) / 1024) ++
      "\\u" ++ hex4 (56320 + (c.toNat - 65536) % 1024)

/-- A JSON string literal: the escaped characters between double quotes. -/
def jsonQuote (s : String) : String :=
  "\"" ++ String.join (s.data.map jsonEscapeChar) ++ "\""

/-- The message of the `TypeError` raised by `json.dumps` on a datetime
value. -/
def notSerializableMsg : String :=
  "Object of type datetime is not JSON serializable"

/-- The message of the `TypeError` raised by `json.dumps` on a datetime
dict key. -/
def keyNotSerializableMsg : String :=
  "keys must be str, int, float, bool or None, not datetime.datetime"

/-- JSON rendering of one scalar value; datetimes are not serializable. -/
def jsonScalar : PyVal → Except String String
  | .vStr s => .ok (jsonQuote s)
  | .vInt n => .ok (toString n)
  | .vBool b => .ok (if b then "true" else "false")
  | .vNone => .ok "null"
  | .vDateTime _ => .error notSerializableMsg

/-- JSON rendering of one dict key: `json.dumps` coerces int, bool and
`None` keys to strings; datetime keys raise. -/
def jsonKey : PyVal → Except String String
  | .vStr s => .ok (jsonQuote s)
  | .vInt n => .ok (jsonQuote (toString n))
  | .vBool b => .ok (jsonQuote (if b then "true" else "false"))
  | .vNone => .ok (jsonQuote "null")
  | .vDateTime _ => .error keyNotSerializableMsg

/-- Render every element of a list, failing at the first bad element. -/
def jsonItems : List PyVal → Except String (List String)
  | [] => .ok []
  | v :: vs =>
    match jsonScalar v with
    | .error e => .error e
    | .ok s =>
      match jsonItems vs with
      | .error e => .error e
      | .ok rest => .ok (s :: rest)

/-- Render every `key: value` entry of a dict, in insertion order,
failing at the first bad key or value. -/
def jsonEntries : List (PyVal × PyVal) → Except String (List String)
  | [] => .ok []
  | p :: ps =>
    match jsonKey p.1 with
    | .error e => .error e
    | .ok k =>
      match jsonScalar p.2 with
      | .error e => .error e
      | .ok v =>
        match jsonEntries ps with
        | .error e => .error e
        | .ok rest => .ok (("  " ++ k ++ ": " ++ v) :: rest)

/-- `json.dumps(vs, indent=2)` for a flat list of scalars: `[]` when
empty, otherwise one two-space-indented element per line. -/
def jsonDumpsList (vs : List PyVal) : Except String String :=
  match jsonItems vs with
  | .error e => .error e
  | .ok [] => .ok "[]"
  | .ok items =>
      .ok ("[\n" ++ String.intercalate ",\n" (items.map (fun s => "  " ++ s)) ++ "\n]")

/-- `json.dumps(d, indent=2)` for a flat dict of scalars: `\x7b\x7d` when
empty, otherwise one two-space-indented entry per line. -/
def jsonDumpsDict (d : List (PyVal × PyVal)) : Except String String :=
  match jsonEntries d with
  | .error e => .error e
  | .ok [] => .ok "\x7b\x7d"
  | .ok entries =>
      .ok ("\x7b\n" ++ String.intercalate ",\n" entries ++ "\n\x7d")

/-- Split a character stream into lines at newline characters. -/
def splitLinesAux : List Char → List Char → List String
  | [], acc => [⟨acc.reverse⟩]
  | c :: cs, acc =>
      if c = '\n' then ⟨acc.reverse⟩ :: splitLinesAux cs []
      else splitLinesAux cs (c :: acc)

/-- The lines a `print(s)` call contributes to standard output. -/
def splitLines (s : String) : List String := splitLinesAux s.data []

/-- The active sheet of the opened workbook, as the ordered rows of cell
values the spreadsheet reader yields. -/
structure Worksheet where
  rows : List (List PyVal)
deriving DecidableEq, Repr

/-- `sheet.max_row`: openpyxl reports at least 1 even for an empty sheet. -/
def Worksheet.maxRow (ws : Worksheet) : Nat := max ws.rows.length 1

/-- `headers = [cell.value for cell in sheet[1]]`: the first row, empty
when the sheet has no first row. -/
def headers (ws : Worksheet) : List PyVal := ws.rows.headD []

/-- `row_data`: the second row when `sheet.max_row >= 2`, else `[]`. -/
def row_data (ws : Worksheet) : List PyVal :=
  if 2 ≤ ws.maxRow then (ws.rows.drop 1).headD [] else []

/-- `sample = dict(zip(headers, row_data))`. -/
def sample (ws : Worksheet) : List (PyVal × PyVal) :=
  pyDict ((headers ws).zip (row_data ws))

/-- The sample dict after the normalization loop replaced every value
having `isoformat` by its ISO-8601 string. -/
def normalizedSample (ws : Worksheet) : List (PyVal × PyVal) :=
  (sample ws).map (fun p => (p.1, normalizeVal p.2))

/-- The text printed by the handler: `f"Error: {e}"`. -/
def errorLine (msg : String) : String := "Error: " ++ msg

/-- The outcome of `openpyxl.load_workbook('prueba2.xlsx')`: a raised
exception carrying its message, or the opened workbook. -/
inductive LoadResult where
  | failure (msg : String)
  | success (ws : Worksheet)
deriving DecidableEq, Repr

/-- The whole script: the lines written to standard output, following the
source order exactly.  `print("HEADERS:")` runs before
`json.dumps(headers, ...)` is evaluated, and `print("\nSAMPLE ROW:")`
runs before the sample dict is built and serialized, so a serialization
failure is reported after those labels are already printed; every failure
is caught by the `except Exception` handler, which prints one
`Error: ...` payload. -/
def run (input : LoadResult) : List String :=
  match input with
  | .failure msg => splitLines (errorLine msg)
  | .success ws =>
    match jsonDumpsList (headers ws) with
    | .error msg => splitLines "HEADERS:" ++ splitLines (errorLine msg)
    | .ok hjson =>
      match jsonDumpsDict (normalizedSample ws) with
      | .error msg =>
          splitLines "HEADERS:" ++ splitLines hjson ++
            splitLines "\nSAMPLE ROW:" ++ splitLines (errorLine msg)
      | .ok sjson =>
          splitLines "HEADERS:" ++ splitLines hjson ++
            splitLines "\nSAMPLE ROW:" ++ splitLines sjson

/-- The script as a process: its output lines and its exit status.  Every
failure point of the body sits inside the `try`, the handler itself only
prints, and the script then falls off the end, so CPython exits with
status 0 on every input. -/
def runProcess (input : LoadResult) : List String × Nat := (run input, 0)

/-- The output shape of a run in which both report parts were printed. -/
def isCompleteReport (out : List String) : Prop :=
  ∃ hjson sjson, out = ["HEADERS:"] ++ splitLines hjson ++ ["", "SAMPLE ROW:"] ++ splitLines sjson

/-- The output shape of a run that printed one error line and nothing
else. -/
def isSingleErrorLine (out : List String) : Prop :=
  ∃ msg, out = [errorLine msg]

/-- An ISO-8601 date/time text: exactly `YYYY-MM-DDTHH:MM:SS` with digit
characters in every numeric position. -/
def isIso8601DateTime (s : String) : Bool :=
  match s.data with
  | [y1, y2, y3, y4, c1, mo1, mo2, c2, d1, d2, t1, h1, h2, c3, mi1, mi2, c4, s1, s2] =>
      y1.isDigit && y2.isDigit && y3.isDigit && y4.isDigit &&
      (c1 == '-') && mo1.isDigit && mo2.isDigit && (c2 == '-') &&
      d1.isDigit && d2.isDigit && (t1 == 'T') &&
      h1.isDigit && h2.isDigit && (c3 == ':') &&
      mi1.isDigit && mi2.isDigit && (c4 == ':') &&
      s1.isDigit && s2.isDigit
  | _ => false

theorem splitLinesAux_ne_nil (cs acc : List Char) : splitLinesAux cs acc ≠ [] := by
  induction cs generalizing acc with
  | nil => simp [splitLinesAux]
  | cons c cs ih =>
    simp only [splitLinesAux]
    split
    · simp
    · exact ih _

theorem splitLines_ne_nil (s : String) : splitLines s ≠ [] :=
  splitLinesAux_ne_nil s.data []

theorem one_le_length_splitLines (s : String) : 1 ≤ (splitLines s).length := by
  cases hs : splitLines s with
  | nil => exact absurd hs (splitLines_ne_nil s)
  | cons a t => simp

theorem splitLinesAux_of_no_newline (cs : List Char) (acc : List Char)
    (h : ('\n') ∉ cs) : splitLinesAux cs acc = [⟨acc.reverse ++ cs⟩] := by
  induction cs generalizing acc with
  | nil => simp [splitLinesAux]
  | cons c cs ih =>
    simp only [List.mem_cons, not_or] at h
    simp only [splitLinesAux]
    rw [if_neg (fun hc => h.1 hc.symm), ih (c :: acc) h.2]
    simp

theorem splitLines_eq_single (s : String) (h : ('\n') ∉ s.data) : splitLines s = [s] := by
  unfold splitLines
  rw [splitLinesAux_of_no_newline s.data [] h]
  rfl

theorem errorLine_data (msg : String) :
    (errorLine msg).data =
      'E' :: 'r' :: 'r' :: 'o' :: 'r' :: ':' :: ' ' :: msg.data := by
  show (("Error: " : String) ++ msg).data = _
  rw [String.data_append]
  rfl

theorem newline_not_mem_errorLine (msg : String) (h : ('\n') ∉ msg.data) :
    ('\n') ∉ (errorLine msg).data := by
  rw [errorLine_data]
  simp only [List.mem_cons, not_or]
  exact ⟨by decide, by decide, by decide, by decide, by decide, by decide, by decide, h⟩

theorem splitLines_errorLine (msg : String) (h : ('\n') ∉ msg.data) :
    splitLines (errorLine msg) = [errorLine msg] :=
  splitLines_eq_single _ (newline_not_mem_errorLine msg h)

theorem head?_data_errorLine (msg : String) : (errorLine msg).data.head? = some 'E' := by
  rw [errorLine_data]
  rfl

theorem errorLine_ne_of_head (msg s : String)
    (hs : s.data.head? ≠ some 'E') : errorLine msg ≠ s := by
  intro he
  apply hs
  rw [← he]
  exact head?_data_errorLine msg

theorem splitLines_headers_label : splitLines "HEADERS:" = ["HEADERS:"] := rfl

theorem splitLines_sample_label : splitLines "\nSAMPLE ROW:" = ["", "SAMPLE ROW:"] := rfl

/-- C1: On a successful run — the workbook loads and both `json.dumps`
calls succeed — the script writes to standard output exactly the literal
line `HEADERS:`, the lines of the headers JSON array (2-space indent,
column order), a blank line, the literal line `SAMPLE ROW:`, and the
lines of the sample JSON object (2-space indent), in that order and
nothing else. -/
theorem run_success_output (ws : Worksheet) (hjson sjson : String)
    (hh : jsonDumpsList (headers ws) = .ok hjson)
    (hs : jsonDumpsDict (normalizedSample ws) = .ok sjson) :
    run (.success ws) =
      ["HEADERS:"] ++ splitLines hjson ++ ["", "SAMPLE ROW:"] ++ splitLines sjson := by
  simp only [run, hh, hs, splitLines_headers_label, splitLines_sample_label]

/-- C1 witness: a one-column workbook with header `A` and sample value 1
produces exactly the two-part report. -/
theorem run_success_output_witness :
    jsonDumpsList (headers ⟨[[.vStr "A"], [.vInt 1]]⟩) = .ok "[\n  \"A\"\n]" ∧
    jsonDumpsDict (normalizedSample ⟨[[.vStr "A"], [.vInt 1]]⟩) =
      .ok "\x7b\n  \"A\": 1\n\x7d" ∧
    run (.success ⟨[[.vStr "A"], [.vInt 1]]⟩) =
      ["HEADERS:"] ++ splitLines "[\n  \"A\"\n]" ++ ["", "SAMPLE ROW:"] ++
        splitLines "\x7b\n  \"A\": 1\n\x7d" :=
  ⟨rfl, rfl, run_success_output ⟨[[.vStr "A"], [.vInt 1]]⟩ _ _ rfl rfl⟩

/-- C5: When `openpyxl.load_workbook` raises (nonexistent file path), the
script prints exactly one line `Error: <message>` and neither a
`HEADERS:` nor a `SAMPLE ROW:` line (the message of such an OS error is a
single line). -/
theorem run_load_failure (msg : String) (h : ('\n') ∉ msg.data) :
    run (.failure msg) = [errorLine msg] ∧
    "HEADERS:" ∉ run (.failure msg) ∧
    "SAMPLE ROW:" ∉ run (.failure msg) := by
  have hrun : run (.failure msg) = [errorLine msg] := by
    simp only [run]
    exact splitLines_errorLine msg h
  refine ⟨hrun, ?_, ?_⟩
  · rw [hrun]
    simp only [List.mem_singleton]
    exact fun hc => errorLine_ne_of_head msg "HEADERS:" (by decide) hc.symm
  · rw [hrun]
    simp only [List.mem_singleton]
    exact fun hc => errorLine_ne_of_head msg "SAMPLE ROW:" (by decide) hc.symm

/-- C5 witness: the `FileNotFoundError` message for the hardcoded path. -/
theorem run_load_failure_witness :
    ('\n') ∉ ("[Errno 2] No such file or directory: 'prueba2.xlsx'" : String).data ∧
    run (.failure "[Errno 2] No such file or directory: 'prueba2.xlsx'") =
      [errorLine "[Errno 2] No such file or directory: 'prueba2.xlsx'"] :=
  ⟨by decide, (run_load_failure "[Errno 2] No such file or directory: 'prueba2.xlsx'" (by decide)).1⟩

/-- C7: no input makes an exception escape: the process exit status is 0
for every input, a load failure is reported as an `Error:` text line, and
the script always produces some output rather than crashing silently. -/
theorem runProcess_exit_zero (i : LoadResult) :
    (runProcess i).2 = 0 ∧
    (∀ msg, i = .failure msg → ('\n') ∉ msg.data →
      (runProcess i).1 = [errorLine msg]) ∧
    (runProcess i).1 ≠ [] := by
  refine ⟨rfl, ?_, ?_⟩
  · rintro msg rfl hmsg
    show run (.failure msg) = _
    simp only [run]
    exact splitLines_errorLine msg hmsg
  · show run i ≠ []
    cases i with
    | failure msg => exact splitLines_ne_nil _
    | success ws =>
      show run (.success ws) ≠ []
      simp only [run]
      split
      · intro hc
        exact splitLines_ne_nil _ (List.append_eq_nil.mp hc).1
      · split
        · intro hc
          simp only [List.append_eq_nil] at hc
          exact splitLines_ne_nil _ hc.1.1.1
        · intro hc
          simp only [List.append_eq_nil] at hc
          exact splitLines_ne_nil _ hc.1.1.1

/-- C7 witness: a concrete failed load exits 0 and prints the error
text. -/
theorem runProcess_exit_zero_witness :
    (runProcess (.failure "boom")).2 = 0 ∧
    (runProcess (.failure "boom")).1 = [errorLine "boom"] :=
  ⟨(runProcess_exit_zero (.failure "boom")).1,
    (runProcess_exit_zero (.failure "boom")).2.1 "boom" rfl (by decide)⟩

/-- C9: the script is a pure function of the loaded workbook contents:
two runs on the same unchanged input produce identical output (and the
same exit status); there is no hidden state across runs. -/
theorem run_deterministic (i j : LoadResult) (h : i = j) :
    run i = run j ∧ runProcess i = runProcess j := by
  subst h
  exact ⟨rfl, rfl⟩

/-- C6: for a worksheet with fewer than 2 rows the sample row sequence is
empty, the sample dict is empty, and (whenever the headers serialize, so
that the report is reached) the printed sample object is exactly `{}`. -/
theorem short_sheet_empty_sample (ws : Worksheet) (hjson : String)
    (hrows : ws.rows.length < 2)
    (hh : jsonDumpsList (headers ws) = .ok hjson) :
    row_data ws = [] ∧
    sample ws = [] ∧
    jsonDumpsDict (normalizedSample ws) = .ok "\x7b\x7d" ∧
    run (.success ws) =
      ["HEADERS:"] ++ splitLines hjson ++ ["", "SAMPLE ROW:", "\x7b\x7d"] := by
  have hrd : row_data ws = [] := by
    unfold row_data Worksheet.maxRow
    rw [if_neg]
    omega
  have hsam : sample ws = [] := by
    unfold sample
    rw [hrd]
    simp [pyDict]
  have hns : normalizedSample ws = [] := by
    unfold normalizedSample
    rw [hsam]
    rfl
  have hd : jsonDumpsDict (normalizedSample ws) = .ok "\x7b\x7d" := by
    rw [hns]
    rfl
  refine ⟨hrd, hsam, hd, ?_⟩
  simp only [run, hh, hd, splitLines_headers_label, splitLines_sample_label]
  rw [show splitLines "\x7b\x7d" = ["\x7b\x7d"] from rfl]
  simp [List.append_assoc]

/-- C6 witness: a one-row worksheet prints `\x7b\x7d` as its sample
object. -/
theorem short_sheet_empty_sample_witness :
    (Worksheet.mk [[.vStr "A"]]).rows.length < 2 ∧
    jsonDumpsList (headers ⟨[[.vStr "A"]]⟩) = .ok "[\n  \"A\"\n]" ∧
    sample ⟨[[.vStr "A"]]⟩ = [] ∧
    run (.success ⟨[[.vStr "A"]]⟩) =
      ["HEADERS:"] ++ splitLines "[\n  \"A\"\n]" ++ ["", "SAMPLE ROW:", "\x7b\x7d"] :=
  ⟨by decide, rfl,
    (short_sheet_empty_sample ⟨[[.vStr "A"]]⟩ "[\n  \"A\"\n]" (by decide) rfl).2.1,
    (short_sheet_empty_sample ⟨[[.vStr "A"]]⟩ "[\n  \"A\"\n]" (by decide) rfl).2.2.2⟩

theorem isDigit_digitChar_mod (n : Nat) : (Nat.digitChar (n % 10)).isDigit = true := by
  set m := n % 10 with hm
  have hlt : m < 10 := by
    rw [hm]
    exact Nat.mod_lt n (by omega)
  interval_cases m <;> rfl

theorem data_isoformat (d : PyDateTime) :
    (d.isoformat).data =
      [Nat.digitChar (d.year / 1000 % 10), Nat.digitChar (d.year / 100 % 10),
       Nat.digitChar (d.year / 10 % 10), Nat.digitChar (d.year % 10), '-',
       Nat.digitChar (d.month / 10 % 10), Nat.digitChar (d.month % 10), '-',
       Nat.digitChar (d.day / 10 % 10), Nat.digitChar (d.day % 10), 'T',
       Nat.digitChar (d.hour / 10 % 10), Nat.digitChar (d.hour % 10), ':',
       Nat.digitChar (d.minute / 10 % 10), Nat.digitChar (d.minute % 10), ':',
       Nat.digitChar (d.second / 10 % 10), Nat.digitChar (d.second % 10)] := by
  simp [PyDateTime.isoformat, pad4, pad2, String.data_append]

theorem isoformat_isIso8601 (d : PyDateTime) :
    isIso8601DateTime d.isoformat = true := by
  unfold isIso8601DateTime
  rw [data_isoformat]
  simp [isDigit_digitChar_mod]

/-- C4: every sample value exposing `isoformat` (a date/time) appears in
the printed sample dict as the ISO-8601 *string* of that date/time, never
as the raw value; every other value (text, number, boolean, empty/None)
is passed through unchanged by the normalization loop. -/
theorem sample_values_normalized (ws : Worksheet) (k v : PyVal)
    (hkv : (k, v) ∈ sample ws) :
    (∀ d, v = .vDateTime d →
      (k, .vStr d.isoformat) ∈ normalizedSample ws ∧
        isIso8601DateTime d.isoformat = true) ∧
    (hasIsoformat v = false → (k, v) ∈ normalizedSample ws) := by
  constructor
  · rintro d rfl
    refine ⟨?_, isoformat_isIso8601 d⟩
    have hm := List.mem_map_of_mem (fun p : PyVal × PyVal => (p.1, normalizeVal p.2)) hkv
    simpa [normalizedSample, normalizeVal] using hm
  · intro hv
    have hm := List.mem_map_of_mem (fun p : PyVal × PyVal => (p.1, normalizeVal p.2)) hkv
    have hnv : normalizeVal v = v := by
      cases v <;> simp_all [normalizeVal, hasIsoformat]
    simpa [normalizedSample, hnv] using hm

/-- C4 witness: a datetime sample value under header `F` is printed as
its ISO-8601 string. -/
theorem sample_values_normalized_witness :
    ((PyVal.vStr "F", PyVal.vDateTime ⟨2024, 1, 15, 10, 30, 0⟩) ∈
      sample ⟨[[.vStr "F"], [.vDateTime ⟨2024, 1, 15, 10, 30, 0⟩]]⟩) ∧
    ((∀ d, PyVal.vDateTime ⟨2024, 1, 15, 10, 30, 0⟩ = .vDateTime d →
      (PyVal.vStr "F", PyVal.vStr d.isoformat) ∈
        normalizedSample ⟨[[.vStr "F"], [.vDateTime ⟨2024, 1, 15, 10, 30, 0⟩]]⟩ ∧
        isIso8601DateTime d.isoformat = true) ∧
    (hasIsoformat (PyVal.vDateTime ⟨2024, 1, 15, 10, 30, 0⟩) = false →
      (PyVal.vStr "F", PyVal.vDateTime ⟨2024, 1, 15, 10, 30, 0⟩) ∈
        normalizedSample ⟨[[.vStr "F"], [.vDateTime ⟨2024, 1, 15, 10, 30, 0⟩]]⟩)) :=
  ⟨by decide,
    sample_values_normalized ⟨[[.vStr "F"], [.vDateTime ⟨2024, 1, 15, 10, 30, 0⟩]]⟩
      (.vStr "F") (.vDateTime ⟨2024, 1, 15, 10, 30, 0⟩) (by decide)⟩

theorem pyEq_eq_toKey (a b : PyVal) : pyEq a b = decide (toKey a = toKey b) := by
  cases a <;> cases b <;>
    (try rfl) <;>
    (try (rename_i x y; (try (cases x <;> cases y <;> rfl)))) <;>
    simp [pyEq, toKey]

theorem pyEq_symm (a b : PyVal) : pyEq a b = pyEq b a := by
  rw [pyEq_eq_toKey, pyEq_eq_toKey]
  simp [eq_comm]

theorem pyEq_trans {a b c : PyVal} (hab : pyEq a b = true) (hbc : pyEq b c = true) :
    pyEq a c = true := by
  rw [pyEq_eq_toKey] at hab hbc ⊢
  simp only [decide_eq_true_eq] at *
  rw [hab, hbc]

theorem pyEq_congr (a b x : PyVal) (hab : pyEq a b = true) :
    pyEq x a = pyEq x b := by
  rw [pyEq_eq_toKey] at hab ⊢
  rw [pyEq_eq_toKey]
  simp only [decide_eq_true_eq] at hab
  rw [hab]

theorem find?_map_update (d : List (PyVal × PyVal)) (k₀ v₀ k : PyVal) :
    ((d.map (fun p => if pyEq p.1 k₀ then (p.1, v₀) else p)).find?
        (fun p => pyEq p.1 k)) =
      ((d.find? (fun p => pyEq p.1 k)).map
        (fun p => if pyEq p.1 k₀ then (p.1, v₀) else p)) := by
  rw [List.find?_map]
  have hp : ((fun p : PyVal × PyVal => pyEq p.1 k) ∘
      (fun p : PyVal × PyVal => if pyEq p.1 k₀ then (p.1, v₀) else p)) =
      (fun p : PyVal × PyVal => pyEq p.1 k) := by
    funext q
    simp only [Function.comp_apply]
    split <;> rfl
  rw [hp]

theorem dictLookup_dictInsert (d : List (PyVal × PyVal)) (k₀ v₀ k : PyVal) :
    dictLookup (dictInsert d k₀ v₀) k =
      if pyEq k₀ k = true then some v₀ else dictLookup d k := by
  unfold dictInsert dictLookup
  by_cases hany : d.any (fun p => pyEq p.1 k₀) = true
  · rw [if_pos hany, find?_map_update]
    by_cases hk : pyEq k₀ k = true
    · rw [if_pos hk]
      obtain ⟨q, hqmem, hq⟩ := List.any_eq_true.mp hany
      have hqk : pyEq q.1 k = true := by
        rw [← pyEq_congr k₀ k q.1 hk]
        exact hq
      have hsome : ((d.find? (fun p => pyEq p.1 k)).isSome) := by
        rw [List.find?_isSome]
        exact ⟨q, hqmem, hqk⟩
      obtain ⟨p, hp⟩ := Option.isSome_iff_exists.mp hsome
      have hpk : pyEq p.1 k = true := by simpa using List.find?_some hp
      have hpk₀ : pyEq p.1 k₀ = true := by
        rw [pyEq_congr k₀ k p.1 hk]
        exact hpk
      rw [hp]
      simp [hpk₀]
    · rw [if_neg hk]
      cases hf : d.find? (fun p => pyEq p.1 k) with
      | none => rfl
      | some p =>
        have hpk : pyEq p.1 k = true := by simpa using List.find?_some hf
        have hpk₀ : pyEq p.1 k₀ = false := by
          cases hc : pyEq p.1 k₀ with
          | false => rfl
          | true =>
            have h1 : pyEq k₀ p.1 = true := by
              rw [pyEq_symm k₀ p.1]
              exact hc
            exact absurd (pyEq_trans h1 hpk) hk
        simp [hpk₀]
  · rw [if_neg hany, List.find?_append]
    rw [Bool.not_eq_true, List.any_eq_false] at hany
    by_cases hk : pyEq k₀ k = true
    · rw [if_pos hk]
      have hnone : d.find? (fun p => pyEq p.1 k) = none := by
        rw [List.find?_eq_none]
        intro p hp hpk
        apply hany p hp
        rw [pyEq_congr k₀ k p.1 hk]
        exact hpk
      rw [hnone]
      simp [List.find?_cons, hk]
    · rw [if_neg hk]
      have hkf : pyEq k₀ k = false := by simpa using hk
      have hone : ([(k₀, v₀)].find? (fun p => pyEq p.1 k)) = none := by
        simp [List.find?_cons, hkf]
      rw [hone]
      simp

theorem dictLookup_foldl (pairs acc : List (PyVal × PyVal)) (k : PyVal) :
    dictLookup (pairs.foldl (fun d p => dictInsert d p.1 p.2) acc) k =
      match (pairs.filter (fun p => pyEq p.1 k)).getLast? with
      | some q => some q.2
      | none => dictLookup acc k := by
  induction pairs generalizing acc with
  | nil => simp
  | cons p ps ih =>
    rw [List.foldl_cons, ih (dictInsert acc p.1 p.2) ]
    rw [dictLookup_dictInsert acc p.1 p.2 k]
    by_cases hpk : pyEq p.1 k = true
    · rw [List.filter_cons_of_pos (by simpa using hpk), if_pos hpk]
      cases hrest : ps.filter (fun p => pyEq p.1 k) with
      | nil => simp
      | cons r rs =>
        rw [List.getLast?_cons_cons]
        cases hgl : (r :: rs).getLast? with
        | none =>
          rw [List.getLast?_eq_none_iff] at hgl
          exact absurd hgl (by simp)
        | some q => rfl
    · rw [List.filter_cons_of_neg (by simpa using hpk), if_neg hpk]

/-- C8: the sample dict maps every key to the value paired with the LAST
occurrence of that key among the zipped header/value pairs: with
duplicate headers, later positional pairings silently overwrite earlier
ones; a key with no occurrence is absent. -/
theorem sample_last_occurrence_wins (ws : Worksheet) (k : PyVal) :
    dictLookup (sample ws) k =
      ((((headers ws).zip (row_data ws)).filter
          (fun p => pyEq p.1 k)).getLast?).map (fun p => p.2) := by
  unfold sample pyDict
  rw [dictLookup_foldl]
  cases hl : (((headers ws).zip (row_data ws)).filter (fun p => pyEq p.1 k)).getLast? with
  | none => simp [dictLookup]
  | some q => simp

theorem zip_eq_zip_take_min (hs rd : List PyVal) :
    hs.zip rd =
      (hs.take (min hs.length rd.length)).zip (rd.take (min hs.length rd.length)) := by
  conv_lhs => rw [← List.take_length (hs.zip rd), List.length_zip]
  rw [List.zip_eq_zipWith, List.take_zipWith, ← List.zip_eq_zipWith]

theorem pairwise_zip_keys {hs : List PyVal} (rd : List PyVal)
    (h : hs.Pairwise (fun a b => pyEq a b = false)) :
    (hs.zip rd).Pairwise (fun p q => pyEq p.1 q.1 = false) := by
  induction hs generalizing rd with
  | nil => simp
  | cons a hs ih =>
    cases rd with
    | nil => simp
    | cons b rd =>
      rw [List.zip_cons_cons]
      rw [List.pairwise_cons] at h ⊢
      refine ⟨?_, ih rd h.2⟩
      rintro ⟨q1, q2⟩ hq
      exact h.1 q1 (List.of_mem_zip hq).1

theorem foldl_dictInsert_of_fresh (pairs : List (PyVal × PyVal)) :
    ∀ acc : List (PyVal × PyVal),
    (∀ p ∈ pairs, ∀ q ∈ acc, pyEq q.1 p.1 = false) →
    pairs.Pairwise (fun p q => pyEq p.1 q.1 = false) →
    pairs.foldl (fun d p => dictInsert d p.1 p.2) acc = acc ++ pairs := by
  induction pairs with
  | nil => intro acc _ _; simp
  | cons p ps ih =>
    intro acc hacc hdist
    rw [List.pairwise_cons] at hdist
    rw [List.foldl_cons]
    have hcond : acc.any (fun q => pyEq q.1 p.1) = false := by
      rw [List.any_eq_false]
      intro q hq
      simp [hacc p (List.mem_cons_self p ps) q hq]
    have hins : dictInsert acc p.1 p.2 = acc ++ [p] := by
      unfold dictInsert
      rw [hcond]
      simp
    have hacc2 : ∀ r ∈ ps, ∀ q ∈ acc ++ [p], pyEq q.1 r.1 = false := by
      intro r hr q hq
      rcases List.mem_append.mp hq with hq | hq
      · exact hacc r (List.mem_cons_of_mem p hr) q hq
      · rw [List.mem_singleton] at hq
        subst hq
        exact hdist.1 r hr
    rw [hins, ih (acc ++ [p]) hacc2 hdist.2]
    simp

theorem pyDict_of_distinct (pairs : List (PyVal × PyVal))
    (hdist : pairs.Pairwise (fun p q => pyEq p.1 q.1 = false)) :
    pyDict pairs = pairs := by
  unfold pyDict
  rw [foldl_dictInsert_of_fresh pairs [] (by simp) hdist]
  simp

/-- C2: when the header and sample sequences have different lengths, the
sample dict is built from exactly the positional pairs up to the shorter
length — the extra headers or extra values beyond it are dropped
silently — and when the headers are pairwise distinct the dict is
exactly those pairs (e.g. 3 headers with 2 values keep only the first 2
pairs). -/
theorem sample_truncates (ws : Worksheet)
    (hlen : (headers ws).length ≠ (row_data ws).length) :
    sample ws =
      pyDict (((headers ws).take (min (headers ws).length (row_data ws).length)).zip
        ((row_data ws).take (min (headers ws).length (row_data ws).length))) ∧
    ((headers ws).zip (row_data ws)).length =
      min (headers ws).length (row_data ws).length ∧
    ((headers ws).Pairwise (fun a b => pyEq a b = false) →
      sample ws = (headers ws).zip (row_data ws)) := by
  refine ⟨?_, List.length_zip _ _, ?_⟩
  · unfold sample
    rw [← zip_eq_zip_take_min]
  · intro hdist
    unfold sample
    exact pyDict_of_distinct _ (pairwise_zip_keys _ hdist)

/-- C2 witness: 3 headers and 2 sample values leave a 2-entry sample
dict; the third header is dropped. -/
theorem sample_truncates_witness :
    ((headers ⟨[[.vStr "A", .vStr "B", .vStr "C"], [.vInt 1, .vInt 2]]⟩).length ≠
      (row_data ⟨[[.vStr "A", .vStr "B", .vStr "C"], [.vInt 1, .vInt 2]]⟩).length) ∧
    sample ⟨[[.vStr "A", .vStr "B", .vStr "C"], [.vInt 1, .vInt 2]]⟩ =
      [(.vStr "A", .vInt 1), (.vStr "B", .vInt 2)] ∧
    ((headers ⟨[[.vStr "A", .vStr "B", .vStr "C"], [.vInt 1, .vInt 2]]⟩).Pairwise
        (fun a b => pyEq a b = false) →
      sample ⟨[[.vStr "A", .vStr "B", .vStr "C"], [.vInt 1, .vInt 2]]⟩ =
        (headers ⟨[[.vStr "A", .vStr "B", .vStr "C"], [.vInt 1, .vInt 2]]⟩).zip
          (row_data ⟨[[.vStr "A", .vStr "B", .vStr "C"], [.vInt 1, .vInt 2]]⟩)) :=
  ⟨by decide, by decide,
    (sample_truncates ⟨[[.vStr "A", .vStr "B", .vStr "C"], [.vInt 1, .vInt 2]]⟩
      (by decide)).2.2⟩

theorem jsonItems_error : ∀ {vs : List PyVal} {e : String},
    jsonItems vs = .error e → e = notSerializableMsg := by
  intro vs
  induction vs with
  | nil => intro e h; simp [jsonItems] at h
  | cons v vs ih =>
    intro e h
    simp only [jsonItems] at h
    cases v with
    | vDateTime d =>
      simp only [jsonScalar, Except.error.injEq] at h
      exact h.symm
    | vStr s =>
      simp only [jsonScalar] at h
      cases hr : jsonItems vs with
      | error e' =>
        rw [hr] at h
        simp only [Except.error.injEq] at h
        rw [← h]
        exact ih hr
      | ok rest =>
        rw [hr] at h
        simp at h
    | vInt n =>
      simp only [jsonScalar] at h
      cases hr : jsonItems vs with
      | error e' =>
        rw [hr] at h
        simp only [Except.error.injEq] at h
        rw [← h]
        exact ih hr
      | ok rest =>
        rw [hr] at h
        simp at h
    | vBool b =>
      simp only [jsonScalar] at h
      cases hr : jsonItems vs with
      | error e' =>
        rw [hr] at h
        simp only [Except.error.injEq] at h
        rw [← h]
        exact ih hr
      | ok rest =>
        rw [hr] at h
        simp at h
    | vNone =>
      simp only [jsonScalar] at h
      cases hr : jsonItems vs with
      | error e' =>
        rw [hr] at h
        simp only [Except.error.injEq] at h
        rw [← h]
        exact ih hr
      | ok rest =>
        rw [hr] at h
        simp at h

theorem jsonDumpsList_error {vs : List PyVal} {e : String}
    (h : jsonDumpsList vs = .error e) : e = notSerializableMsg := by
  unfold jsonDumpsList at h
  cases hi : jsonItems vs with
  | error e' =>
    rw [hi] at h
    simp only [Except.error.injEq] at h
    rw [← h]
    exact jsonItems_error hi
  | ok items =>
    rw [hi] at h
    cases items <;> simp at h

theorem jsonEntries_error : ∀ {d : List (PyVal × PyVal)} {e : String},
    jsonEntries d = .error e →
      e = notSerializableMsg ∨ e = keyNotSerializableMsg := by
  intro d
  induction d with
  | nil => intro e h; simp [jsonEntries] at h
  | cons p ps ih =>
    intro e h
    simp only [jsonEntries] at h
    cases hk : jsonKey p.1 with
    | error ek =>
      rw [hk] at h
      simp only [Except.error.injEq] at h
      subst h
      right
      cases hp1 : p.1 <;> rw [hp1] at hk <;> simp [jsonKey] at hk <;> (try exact hk.symm)
    | ok ks =>
      rw [hk] at h
      cases hv : jsonScalar p.2 with
      | error ev =>
        rw [hv] at h
        simp only [Except.error.injEq] at h
        subst h
        left
        cases hp2 : p.2 <;> rw [hp2] at hv <;> simp [jsonScalar] at hv <;> (try exact hv.symm)
      | ok vs =>
        rw [hv] at h
        cases hr : jsonEntries ps with
        | error er =>
          rw [hr] at h
          simp only [Except.error.injEq] at h
          subst h
          exact ih hr
        | ok rest =>
          rw [hr] at h
          simp at h

theorem jsonDumpsDict_error {d : List (PyVal × PyVal)} {e : String}
    (h : jsonDumpsDict d = .error e) :
    e = notSerializableMsg ∨ e = keyNotSerializableMsg := by
  unfold jsonDumpsDict at h
  cases hi : jsonEntries d with
  | error e' =>
    rw [hi] at h
    simp only [Except.error.injEq] at h
    subst h
    exact jsonEntries_error hi
  | ok entries =>
    rw [hi] at h
    cases entries <;> simp at h

/-- C3 counterexample: a loadable workbook whose only row holds one
datetime cell makes `json.dumps(headers)` raise after the `HEADERS:`
label was already printed: the output is a report line followed by an
error line — neither the complete two-part report nor a single error
line, so the claim "full report or a single error line, never a partial
report" fails on this input. -/
theorem run_partial_report :
    run (.success ⟨[[.vDateTime ⟨2024, 1, 15, 10, 30, 0⟩]]⟩) =
      ["HEADERS:", errorLine notSerializableMsg] ∧
    ¬ isCompleteReport (run (.success ⟨[[.vDateTime ⟨2024, 1, 15, 10, 30, 0⟩]]⟩)) ∧
    ¬ isSingleErrorLine (run (.success ⟨[[.vDateTime ⟨2024, 1, 15, 10, 30, 0⟩]]⟩)) := by
  have hrun : run (.success ⟨[[.vDateTime ⟨2024, 1, 15, 10, 30, 0⟩]]⟩) =
      ["HEADERS:", errorLine notSerializableMsg] := rfl
  refine ⟨hrun, ?_, ?_⟩
  · rw [hrun]
    rintro ⟨hjson, sjson, he⟩
    have h1 := one_le_length_splitLines hjson
    have h2 := one_le_length_splitLines sjson
    have hlen := congrArg List.length he
    simp only [List.length_append, List.length_cons, List.length_nil,
      List.length_singleton] at hlen
    omega
  · rw [hrun]
    rintro ⟨msg, he⟩
    have hlen := congrArg List.length he
    simp at hlen

/-- C3 amended: the output of every run is either the complete two-part
report or a (possibly empty) prefix of report lines followed by a single
final `Error:` line; in particular a partial report — report lines and
then the error line — does occur when the header row holds a value
`json.dumps` cannot serialize.  (Load-failure messages are taken
single-line, as OS error messages are.) -/
theorem run_report_or_error (i : LoadResult)
    (hmsg : ∀ msg, i = .failure msg → ('\n') ∉ msg.data) :
    isCompleteReport (run i) ∨ ∃ pre msg, run i = pre ++ [errorLine msg] := by
  cases i with
  | failure msg =>
    right
    refine ⟨[], msg, ?_⟩
    simp only [run, List.nil_append]
    exact splitLines_errorLine msg (hmsg msg rfl)
  | success ws =>
    cases hj : jsonDumpsList (headers ws) with
    | error e =>
      right
      refine ⟨["HEADERS:"], e, ?_⟩
      have he := jsonDumpsList_error hj
      simp only [run, hj, splitLines_headers_label]
      rw [splitLines_errorLine e (by rw [he]; decide)]
    | ok hjson =>
      cases hd : jsonDumpsDict (normalizedSample ws) with
      | error e =>
        right
        refine ⟨["HEADERS:"] ++ splitLines hjson ++ ["", "SAMPLE ROW:"], e, ?_⟩
        have he := jsonDumpsDict_error hd
        simp only [run, hj, hd, splitLines_headers_label, splitLines_sample_label]
        rw [splitLines_errorLine e ?hnl]
        case hnl => rcases he with he | he <;> rw [he] <;> decide
      | ok sjson =>
        left
        exact ⟨hjson, sjson, by
          simp only [run, hj, hd, splitLines_headers_label, splitLines_sample_label]⟩

/-- C3 amended witness: a failed load yields output ending in one error
line. -/
theorem run_report_or_error_witness :
    isCompleteReport (run (.failure "cannot open file")) ∨
      ∃ pre msg, run (.failure "cannot open file") = pre ++ [errorLine msg] :=
  run_report_or_error (.failure "cannot open file")
    (by
      intro msg h
      cases h
      decide)

theorem jsonItems_error_of_mem {vs : List PyVal} (d : PyDateTime)
    (hd : PyVal.vDateTime d ∈ vs) : jsonItems vs = .error notSerializableMsg := by
  induction vs with
  | nil => simp at hd
  | cons v vs ih =>
    rcases List.mem_cons.mp hd with h | h
    · rw [← h]
      simp [jsonItems, jsonScalar]
    · cases v <;> simp [jsonItems, jsonScalar, ih h]

/-- C10: the `isoformat` normalization runs only over the sample values,
never over the headers: a workbook whose first row contains a datetime
cell makes `json.dumps(headers)` raise, and the run takes the error
branch, printing the `Error:` line right after the already-printed
`HEADERS:` label. -/
theorem datetime_header_error (ws : Worksheet) (d : PyDateTime)
    (hd : PyVal.vDateTime d ∈ headers ws) :
    jsonDumpsList (headers ws) = .error notSerializableMsg ∧
    run (.success ws) = ["HEADERS:", errorLine notSerializableMsg] := by
  have hj : jsonDumpsList (headers ws) = .error notSerializableMsg := by
    unfold jsonDumpsList
    rw [jsonItems_error_of_mem d hd]
  refine ⟨hj, ?_⟩
  simp only [run, hj, splitLines_headers_label]
  rw [splitLines_errorLine _ (by decide)]
  rfl

/-- C10 witness: a header row `["X", datetime]` reaches the error branch
after printing `HEADERS:`. -/
theorem datetime_header_error_witness :
    (PyVal.vDateTime ⟨2023, 5, 2, 0, 0, 0⟩ ∈
      headers ⟨[[.vStr "X", .vDateTime ⟨2023, 5, 2, 0, 0, 0⟩]]⟩) ∧
    (jsonDumpsList (headers ⟨[[.vStr "X", .vDateTime ⟨2023, 5, 2, 0, 0, 0⟩]]⟩) =
      .error notSerializableMsg ∧
    run (.success ⟨[[.vStr "X", .vDateTime ⟨2023, 5, 2, 0, 0, 0⟩]]⟩) =
      ["HEADERS:", errorLine notSerializableMsg]) :=
  ⟨by decide,
    datetime_header_error ⟨[[.vStr "X", .vDateTime ⟨2023, 5, 2, 0, 0, 0⟩]]⟩
      ⟨2023, 5, 2, 0, 0, 0⟩ (by decide)⟩

/-- C9 witness: two runs on one concrete input agree. -/
theorem run_deterministic_witness :
    run (.success ⟨[[.vStr "A"]]⟩) = run (.success ⟨[[.vStr "A"]]⟩) ∧
    runProcess (.success ⟨[[.vStr "A"]]⟩) = runProcess (.success ⟨[[.vStr "A"]]⟩) :=
  run_deterministic (.success ⟨[[.vStr "A"]]⟩) (.success ⟨[[.vStr "A"]]⟩) rfl

end AnalyzeTemplate
